import Mathlib

/-!
Verification of the essentia_browser_plugin document-to-render pipeline.

A shallow embedding of the core types and functions of `src/types.rs`,
`src/parser.rs` and `src/renderer.rs`. Rust `f32` geometry is modelled by `ℚ`
(every quantity the layout algorithm manipulates here is produced by addition
and subtraction of small exact values, for which `f32` arithmetic coincides
with rational arithmetic); `u8` colour channels by `Nat`; `Vec` by `List`;
`&str` by `String` or `List Char` (a byte slice starting at the first
occurrence of an ASCII character equals the suffix of the character list from
that occurrence); `Result` by `Except`.
-/

namespace EssentiaBrowser

/-! ## Data model (`src/types.rs`) -/

/-- RGBA color; channels are `u8` bytes (`src/types.rs`, `Color`). -/
structure Color where
  r : Nat
  g : Nat
  b : Nat
  a : Nat
deriving DecidableEq

/-- The derived `Default` zero-initialises every channel. -/
def Color.default : Color := ⟨0, 0, 0, 0⟩

def Color.WHITE : Color := ⟨255, 255, 255, 255⟩

def Color.BLACK : Color := ⟨0, 0, 0, 255⟩

def Color.TRANSPARENT : Color := ⟨0, 0, 0, 0⟩

/-- Display mode (`src/types.rs`, `Display`). -/
inductive Display where
  | Block
  | Inline
  | InlineBlock
  | Flex
  | None
deriving DecidableEq

/-- The `#[default]` variant is `Block`. -/
def Display.default : Display := .Block

/-- Computed CSS style (`src/types.rs`, `ComputedStyle`). -/
structure ComputedStyle where
  display : Display
  width : Option ℚ
  height : Option ℚ
  background_color : Color
  color : Color
deriving DecidableEq

/-- The derived `Default`: default display, `None` sizes, default colors. -/
def ComputedStyle.default : ComputedStyle :=
  ⟨Display.default, none, none, Color.default, Color.default⟩

/-- Layout box dimensions (`src/types.rs`, `LayoutBox`). -/
structure LayoutBox where
  x : ℚ
  y : ℚ
  width : ℚ
  height : ℚ
deriving DecidableEq

/-- The derived `Default` zero-initialises every field. -/
def LayoutBox.default : LayoutBox := ⟨0, 0, 0, 0⟩

/-- HTML element (`src/types.rs`, `Element`). -/
inductive Element where
  | mk (tag : String) (attributes : List (String × String)) (children : List Element)
      (text_content : Option String)

def Element.tag : Element → String
  | .mk t _ _ _ => t

def Element.attributes : Element → List (String × String)
  | .mk _ a _ _ => a

def Element.children : Element → List Element
  | .mk _ _ c _ => c

def Element.text_content : Element → Option String
  | .mk _ _ _ t => t

/-- `Element::new`: a fresh element with no attributes, children or text. -/
def Element.new (tag : String) : Element := .mk tag [] [] none

/-- HTML document representation (`src/types.rs`, `Document`). -/
structure Document where
  title : String
  root : Element
  url : String

/-- CSS rule (`src/types.rs`, `CssRule`). -/
structure CssRule where
  selector : String
  declarations : List (String × String)

/-- CSS stylesheet (`src/types.rs`, `StyleSheet`). -/
structure StyleSheet where
  rules : List CssRule

/-- Render node (`src/types.rs`, `RenderNode`). -/
inductive RenderNode where
  | mk (element : Element) (computed_style : ComputedStyle) (layout : LayoutBox)
      (children : List RenderNode)

def RenderNode.element : RenderNode → Element
  | .mk e _ _ _ => e

def RenderNode.computed_style : RenderNode → ComputedStyle
  | .mk _ s _ _ => s

def RenderNode.layout : RenderNode → LayoutBox
  | .mk _ _ l _ => l

def RenderNode.children : RenderNode → List RenderNode
  | .mk _ _ _ c => c

/-- Render tree for layout (`src/types.rs`, `RenderTree`). -/
structure RenderTree where
  root : RenderNode

/-- Browser operation errors (`src/errors.rs`, `BrowserError`). -/
inductive BrowserError where
  | Parse (msg : String)
  | Css (msg : String)
  | Script (msg : String)
  | Render (msg : String)
  | Network (msg : String)
  | Navigation (msg : String)

/-! ## Markup parser (`src/parser.rs`)

Rust string scanning is modelled over `List Char`.  `str::find(c)` followed by
slicing at the found byte index is modelled by `dropWhile`/`takeWhile`: the
slice `&s[pos..]` for `pos = s.find(c)` is exactly the suffix of the character
list starting at the first occurrence of `c`. -/

/-- `char::is_whitespace` (the Unicode `White_Space` property), used by
`str::trim` and `str::split_whitespace`. -/
def isRustWhitespace (c : Char) : Bool :=
  c == ' ' || ('\t' ≤ c && c ≤ '\r') || c == '\u0085' || c == '\u00A0' ||
  c == '\u1680' || (0x2000 ≤ c.toNat && c.toNat ≤ 0x200A) || c == '\u2028' ||
  c == '\u2029' || c == '\u202F' || c == '\u205F' || c == '\u3000'

/-- `str::trim`: strip leading and trailing whitespace. -/
def trimChars (l : List Char) : List Char :=
  ((l.dropWhile isRustWhitespace).reverse.dropWhile isRustWhitespace).reverse

/-- `str::starts_with`. -/
def startsWithChars : List Char → List Char → Bool
  | _, [] => true
  | [], _ :: _ => false
  | c :: cs, p :: ps => c == p && startsWithChars cs ps

/-- `str::split_whitespace().next()`: the first maximal run of non-whitespace
characters (`[]` when the string is all whitespace). -/
def firstToken (l : List Char) : List Char :=
  (l.dropWhile isRustWhitespace).takeWhile (fun c => !isRustWhitespace c)

/-- The "Find first tag" scan of `HtmlParser::parse_element`
(`src/parser.rs` lines 38-48): locate the first `<`, the first `>` after it,
take the first whitespace-delimited token of the text between them as the tag
name (defaulting to "div"), and fall back to an empty "div" element when
either character is missing. -/
def scanFirstTag (html : List Char) : Element :=
  match html.dropWhile (fun c => c != '<') with
  | [] => Element.new "div"
  | _ :: afterLt =>
    if afterLt.contains '>' then
      Element.new
        (match firstToken (afterLt.takeWhile (fun c => c != '>')) with
          | [] => "div"
          | tok => String.mk tok)
    else Element.new "div"

/-- `HtmlParser::parse_element` (`src/parser.rs` lines 27-49): trim, skip a
leading `<!DOCTYPE`/`<!doctype` declaration by recursing on the text after the
first `>` (when a `>` exists), otherwise scan for the first tag.  The source
wraps the result in `BrowserResult` but no path returns `Err`, so the
embedding returns `Element` directly. -/
def HtmlParser.parse_element (html : List Char) : Element :=
  if h : (startsWithChars (trimChars html) "<!DOCTYPE".toList ||
      startsWithChars (trimChars html) "<!doctype".toList) &&
      (trimChars html).contains '>' then
    HtmlParser.parse_element (((trimChars html).dropWhile (fun c => c != '>')).drop 1)
  else
    scanFirstTag (trimChars html)
termination_by html.length
decreasing_by
  have hb : (trimChars html).contains '>' = true := by
    revert h
    cases startsWithChars (trimChars html) "<!DOCTYPE".toList <;>
      cases startsWithChars (trimChars html) "<!doctype".toList <;>
      cases (trimChars html).contains '>' <;> simp
  have hne : (trimChars html).dropWhile (fun c => c != '>') ≠ [] := by
    intro hemp
    have hall := List.dropWhile_eq_nil_iff.mp hemp
    rcases List.contains_iff_exists_mem_beq.mp hb with ⟨b, hmem, hbeq⟩
    have hx := hall b hmem
    simp at hbeq hx
    exact hx hbeq.symm
  have h1 : ((trimChars html).dropWhile (fun c => c != '>')).length ≤
      (trimChars html).length := (List.dropWhile_sublist _).length_le
  have h2 : (trimChars html).length ≤ html.length := by
    have ha : List.Sublist ((((trimChars html))) ) html := by
      have hs : List.Sublist
          (((html.dropWhile isRustWhitespace).reverse.dropWhile isRustWhitespace).reverse)
          ((html.dropWhile isRustWhitespace).reverse.reverse) :=
        (List.dropWhile_sublist _).reverse
      simp only [List.reverse_reverse] at hs
      exact hs.trans (List.dropWhile_sublist _)
    exact ha.length_le
  have h3 : 0 < ((trimChars html).dropWhile (fun c => c != '>')).length :=
    List.length_pos.mpr hne
  simp only [List.length_drop]
  omega

mutual
/-- `HtmlParser::extract_title` (`src/parser.rs` lines 52-66): a node tagged
"title" yields its text content (empty string when absent); otherwise the
children are searched in order and the first non-empty recursive result is
returned, with "Untitled" after an unsuccessful loop. -/
def HtmlParser.extract_title : Element → String
  | .mk tag _ children text_content =>
    if tag = "title" then text_content.getD ""
    else HtmlParser.extractTitleLoop children

/-- The `for child in &root.children` loop of `extract_title`. -/
def HtmlParser.extractTitleLoop : List Element → String
  | [] => "Untitled"
  | c :: rest =>
    let title := HtmlParser.extract_title c
    if title ≠ "" then title else HtmlParser.extractTitleLoop rest
end

/-- `HtmlParser::parse` (`src/parser.rs` lines 11-24). -/
def HtmlParser.parse (html : String) (url : String) : Except BrowserError Document :=
  if html.isEmpty then .error (.Parse "Empty HTML")
  else
    .ok ⟨HtmlParser.extract_title (HtmlParser.parse_element html.toList),
      HtmlParser.parse_element html.toList, url⟩

/-! ## Render engine (`src/renderer.rs`) -/

/-- Render engine for layout and painting (`src/renderer.rs`, `RenderEngine`). -/
structure RenderEngine where
  viewport_width : ℚ
  viewport_height : ℚ

/-- `RenderEngine::new`. -/
def RenderEngine.new (width height : ℚ) : RenderEngine := ⟨width, height⟩

/-- `RenderEngine::resize`. -/
def RenderEngine.resize (_en : RenderEngine) (width height : ℚ) : RenderEngine :=
  ⟨width, height⟩

mutual
/-- `RenderEngine::build_render_node` (`src/renderer.rs` lines 27-45): each
node gets the default computed style, a layout box at `(x, y)` with the
viewport width and zero height, and one child render node per child element. -/
def build_render_node (vw : ℚ) : Element → ℚ → ℚ → RenderNode
  | .mk tag attrs children text, x, y =>
    RenderNode.mk (.mk tag attrs children text) ComputedStyle.default
      ⟨x, y, vw, 0⟩ (buildChildren vw children x y 0)

/-- The `children.iter().enumerate().map(...)` of `build_render_node`:
child `i` is built at `(x, y + i * 20)`. -/
def buildChildren (vw : ℚ) : List Element → ℚ → ℚ → Nat → List RenderNode
  | [], _, _, _ => []
  | c :: rest, x, y, i =>
    build_render_node vw c x (y + (i : ℚ) * 20) :: buildChildren vw rest x y (i + 1)
end

/-- `RenderEngine::build_render_tree` (`src/renderer.rs` lines 21-24). -/
def RenderEngine.build_render_tree (en : RenderEngine) (doc : Document) : RenderTree :=
  ⟨build_render_node en.viewport_width doc.root 0 0⟩

mutual
/-- `RenderEngine::layout_node` (`src/renderer.rs` lines 53-65): set the box
to `(x, y, available_width, _)`, lay the children out in order from cursor
`y`, and set the height to the final cursor minus `y`. -/
def layout_node : RenderNode → ℚ → ℚ → ℚ → RenderNode
  | .mk e s _ children, x, y, available_width =>
    let pr := layoutChildren children x y available_width
    RenderNode.mk e s ⟨x, y, available_width, pr.2 - y⟩ pr.1

/-- The `for child in &mut node.children` loop of `layout_node`: lays each
child out at the running cursor and advances the cursor by the child's laid
out height plus 8; returns the laid out children and the final cursor. -/
def layoutChildren : List RenderNode → ℚ → ℚ → ℚ → List RenderNode × ℚ
  | [], _, y, _ => ([], y)
  | c :: rest, x, y, available_width =>
    let c2 := layout_node c x y available_width
    let pr := layoutChildren rest x (y + (RenderNode.layout c2).height + 8) available_width
    (c2 :: pr.1, pr.2)
end

/-- `RenderEngine::layout` (`src/renderer.rs` lines 48-50): lay the root out
at `(0, 0)` with the engine's viewport width. -/
def RenderEngine.layout (en : RenderEngine) (tree : RenderTree) : RenderTree :=
  ⟨layout_node tree.root 0 0 en.viewport_width⟩

/-! ## Style resolver, modelled from the spec

No style resolution step exists anywhere in the repository's source: the
render tree builder takes no stylesheet and assigns `ComputedStyle::default()`
to every node.  The definitions below follow §4.2 of the spec so that the
builder's behaviour can be compared against the specified resolver. -/

/-- Modelled from the spec: the repository has no code mapping a CSS
declaration value to a `Color`; the colour names of the spec's cascade example
(§8) are given their conventional RGBA values. -/
def parseColorValue (v : String) : Option Color :=
  if v = "black" then some ⟨0, 0, 0, 255⟩
  else if v = "red" then some ⟨255, 0, 0, 255⟩
  else if v = "white" then some ⟨255, 255, 255, 255⟩
  else none

/-- Modelled from the spec (§4.2): fold one `(property, value)` declaration
into the accumulator; a declaration for an unknown property or with an
unrecognised value leaves the accumulator unchanged. -/
def applyDeclaration (acc : ComputedStyle) (decl : String × String) : ComputedStyle :=
  if decl.1 = "color" then
    match parseColorValue decl.2 with
    | some c => ⟨acc.display, acc.width, acc.height, acc.background_color, c⟩
    | none => acc
  else if decl.1 = "background-color" then
    match parseColorValue decl.2 with
    | some c => ⟨acc.display, acc.width, acc.height, c, acc.color⟩
    | none => acc
  else acc

/-- Modelled from the spec (§4.2, absent from the source): iterate the rules
in order, a rule matches when its selector equals the element's tag name, and
matching rules' declarations are folded into an accumulator starting from the
default `ComputedStyle` (last matching declaration wins per property). -/
def resolve (e : Element) (sheet : StyleSheet) : ComputedStyle :=
  sheet.rules.foldl
    (fun acc r =>
      if r.selector = Element.tag e then r.declarations.foldl applyDeclaration acc
      else acc)
    ComputedStyle.default

/-! ## Observations used to state the claims -/

/-- Whether an `Except` is `ok` (Rust `Result::is_ok`). -/
def exceptIsOk : Except BrowserError Document → Bool
  | .ok _ => true
  | .error _ => false

/-- The root tag of a successful parse (empty string on error). -/
def docRootTag : Except BrowserError Document → String
  | .ok d => Element.tag d.root
  | .error _ => ""

mutual
/-- Whether some node of the tree has tag exactly "title". -/
def containsTitle : Element → Bool
  | .mk tag _ children _ => (tag == "title") || containsTitleList children

def containsTitleList : List Element → Bool
  | [] => false
  | c :: rest => containsTitle c || containsTitleList rest
end

mutual
/-- The text of every "title" node, in depth-first pre-order (a missing text
counts as the empty string). -/
def titleTexts : Element → List String
  | .mk tag _ children text_content =>
    (if tag == "title" then [text_content.getD ""] else []) ++ titleTextsList children

def titleTextsList : List Element → List String
  | [] => []
  | c :: rest => titleTexts c ++ titleTextsList rest
end

mutual
/-- Number of nodes of an element tree. -/
def countElements : Element → Nat
  | .mk _ _ children _ => 1 + countElementsList children

def countElementsList : List Element → Nat
  | [] => 0
  | c :: rest => countElements c + countElementsList rest
end

mutual
/-- Number of nodes of a render tree. -/
def countRenderNodes : RenderNode → Nat
  | .mk _ _ _ children => 1 + countRenderNodesList children

def countRenderNodesList : List RenderNode → Nat
  | [] => 0
  | c :: rest => countRenderNodes c + countRenderNodesList rest
end

mutual
/-- The nodes of an element tree in depth-first pre-order. -/
def elemPreorder : Element → List Element
  | .mk tag attrs children text => .mk tag attrs children text :: elemPreorderList children

def elemPreorderList : List Element → List Element
  | [] => []
  | c :: rest => elemPreorder c ++ elemPreorderList rest
end

mutual
/-- The `element` field of every render node, in depth-first pre-order. -/
def renderPreorderElems : RenderNode → List Element
  | .mk e _ _ children => e :: renderPreorderElemsList children

def renderPreorderElemsList : List RenderNode → List Element
  | [] => []
  | c :: rest => renderPreorderElems c ++ renderPreorderElemsList rest
end

mutual
/-- Collapse a render tree back to an element tree: each node keeps its
element's tag, attributes and text, and its render children become the
element children.  `stripRender t = e` states that `t` and `e` have the same
shape with the same per-node element data. -/
def stripRender : RenderNode → Element
  | .mk e _ _ children =>
    .mk (Element.tag e) (Element.attributes e) (stripRenderList children)
      (Element.text_content e)

def stripRenderList : List RenderNode → List Element
  | [] => []
  | c :: rest => stripRender c :: stripRenderList rest
end

mutual
/-- Whether every node of a render tree carries the default computed style. -/
def allDefaultStyles : RenderNode → Bool
  | .mk _ s _ children =>
    decide (s = ComputedStyle.default) && allDefaultStylesList children

def allDefaultStylesList : List RenderNode → Bool
  | [] => true
  | c :: rest => allDefaultStyles c && allDefaultStylesList rest
end

mutual
/-- Replace every layout box of a render tree with the default zero box,
keeping everything else.  `eraseBoxes a = eraseBoxes b` states that `a` and
`b` agree on every node's element, computed style and child structure, and
differ at most in layout boxes. -/
def eraseBoxes : RenderNode → RenderNode
  | .mk e s _ children => .mk e s LayoutBox.default (eraseBoxesList children)

def eraseBoxesList : List RenderNode → List RenderNode
  | [] => []
  | c :: rest => eraseBoxes c :: eraseBoxesList rest
end

/-- The final layout cursor a child list laid out from `y` accounts for: `y`
itself for no children, otherwise the last child's bottom edge plus the
8-unit gap. -/
def cursorSpec (y : ℚ) (children : List RenderNode) : ℚ :=
  match children.getLast? with
  | none => y
  | some last => (RenderNode.layout last).y + (RenderNode.layout last).height + 8

/-- The height the layout algorithm gives a node at `y` with the given laid
out children: `0` for a childless node, otherwise the extent from `y` to the
last child's bottom edge plus the trailing 8-unit gap. -/
def heightSpec (y : ℚ) (children : List RenderNode) : ℚ := cursorSpec y children - y

/-- The children's boxes stack downward from `y`: the first child's box is at
`y` and each subsequent child's `y` is the previous child's bottom edge plus
the 8-unit inter-block gap. -/
def stackedFrom (y : ℚ) : List RenderNode → Prop
  | [] => True
  | c :: rest =>
    (RenderNode.layout c).y = y ∧
      stackedFrom (y + (RenderNode.layout c).height + 8) rest

mutual
/-- Every node of the tree satisfies the block-stacking and height equations
of the layout algorithm. -/
def layoutOk : RenderNode → Prop
  | .mk _ _ lb children =>
    stackedFrom lb.y children ∧ lb.height = heightSpec lb.y children ∧
      layoutOkList children

def layoutOkList : List RenderNode → Prop
  | [] => True
  | c :: rest => layoutOk c ∧ layoutOkList rest
end

/-- The scenario of the parser's fallback root: the input has no `<` at all,
or no `>` at or after its first `<` (the suffix from the first `<` onward,
which is empty when there is no `<`, contains no `>`). -/
def fallbackCond (l : List Char) : Bool :=
  !((l.dropWhile (fun c => c != '<')).contains '>')

/-- The scenario of the defaulted tag name: after trimming, a first `<` and a
later `>` exist but every character between them is whitespace, so the tag
header has no whitespace-delimited token. -/
def emptyHeaderCond (l : List Char) : Bool :=
  match (trimChars l).dropWhile (fun c => c != '<') with
  | [] => false
  | _ :: afterLt =>
    afterLt.contains '>' &&
      (afterLt.takeWhile (fun c => c != '>')).all isRustWhitespace

/-! ## Helper lemmas -/

theorem trimChars_sublist (l : List Char) : List.Sublist (trimChars l) l := by
  have hs : List.Sublist
      (((l.dropWhile isRustWhitespace).reverse.dropWhile isRustWhitespace).reverse)
      ((l.dropWhile isRustWhitespace).reverse.reverse) :=
    (List.dropWhile_sublist _).reverse
  simp only [List.reverse_reverse] at hs
  exact hs.trans (List.dropWhile_sublist _)

/-- The doctype branch of `parse_element`, as an equation. -/
theorem parse_element_skip (l : List Char)
    (h : ((startsWithChars (trimChars l) "<!DOCTYPE".toList ||
      startsWithChars (trimChars l) "<!doctype".toList) &&
      (trimChars l).contains '>') = true) :
    HtmlParser.parse_element l =
      HtmlParser.parse_element (((trimChars l).dropWhile (fun c => c != '>')).drop 1) := by
  rw [HtmlParser.parse_element]
  exact dif_pos h

/-- The non-doctype branch of `parse_element`, as an equation. -/
theorem parse_element_noSkip (l : List Char)
    (h : ((startsWithChars (trimChars l) "<!DOCTYPE".toList ||
      startsWithChars (trimChars l) "<!doctype".toList) &&
      (trimChars l).contains '>') = false) :
    HtmlParser.parse_element l = scanFirstTag (trimChars l) := by
  rw [HtmlParser.parse_element]
  exact dif_neg (by rw [h]; simp)

mutual
theorem build_count (vw : ℚ) : ∀ (e : Element) (x y : ℚ),
    countRenderNodes (build_render_node vw e x y) = countElements e
  | .mk _ _ cs _, x, y => by
    simp only [build_render_node, countRenderNodes, countElements]
    rw [build_count_list vw cs x y 0]

theorem build_count_list (vw : ℚ) : ∀ (cs : List Element) (x y : ℚ) (i : Nat),
    countRenderNodesList (buildChildren vw cs x y i) = countElementsList cs
  | [], _, _, _ => rfl
  | c :: rest, x, y, i => by
    simp only [buildChildren, countRenderNodesList, countElementsList]
    rw [build_count vw c x (y + (i : ℚ) * 20), build_count_list vw rest x y (i + 1)]
end

mutual
theorem build_strip (vw : ℚ) : ∀ (e : Element) (x y : ℚ),
    stripRender (build_render_node vw e x y) = e
  | .mk _ _ cs _, x, y => by
    simp only [build_render_node, stripRender, Element.tag, Element.attributes,
      Element.text_content]
    rw [build_strip_list vw cs x y 0]

theorem build_strip_list (vw : ℚ) : ∀ (cs : List Element) (x y : ℚ) (i : Nat),
    stripRenderList (buildChildren vw cs x y i) = cs
  | [], _, _, _ => rfl
  | c :: rest, x, y, i => by
    simp only [buildChildren, stripRenderList]
    rw [build_strip vw c x (y + (i : ℚ) * 20), build_strip_list vw rest x y (i + 1)]
end

mutual
theorem build_preorder (vw : ℚ) : ∀ (e : Element) (x y : ℚ),
    renderPreorderElems (build_render_node vw e x y) = elemPreorder e
  | .mk _ _ cs _, x, y => by
    simp only [build_render_node, renderPreorderElems, elemPreorder]
    rw [build_preorder_list vw cs x y 0]

theorem build_preorder_list (vw : ℚ) : ∀ (cs : List Element) (x y : ℚ) (i : Nat),
    renderPreorderElemsList (buildChildren vw cs x y i) = elemPreorderList cs
  | [], _, _, _ => rfl
  | c :: rest, x, y, i => by
    simp only [buildChildren, renderPreorderElemsList, elemPreorderList]
    rw [build_preorder vw c x (y + (i : ℚ) * 20), build_preorder_list vw rest x y (i + 1)]
end

theorem build_element (vw : ℚ) (e : Element) (x y : ℚ) :
    RenderNode.element (build_render_node vw e x y) = e := by
  cases e
  simp only [build_render_node, RenderNode.element]

mutual
theorem layout_erase : ∀ (n : RenderNode) (x y aw : ℚ),
    eraseBoxes (layout_node n x y aw) = eraseBoxes n
  | .mk _ _ _ cs, x, y, aw => by
    simp only [layout_node, eraseBoxes]
    rw [layout_erase_list cs x y aw]

theorem layout_erase_list : ∀ (cs : List RenderNode) (x y aw : ℚ),
    eraseBoxesList (layoutChildren cs x y aw).1 = eraseBoxesList cs
  | [], _, _, _ => rfl
  | c :: rest, x, y, aw => by
    simp only [layoutChildren, eraseBoxesList]
    rw [layout_erase c x y aw, layout_erase_list rest]
end

mutual
theorem layout_node_twice : ∀ (n : RenderNode) (x' y' aw' x y aw : ℚ),
    layout_node (layout_node n x' y' aw') x y aw = layout_node n x y aw
  | .mk _ _ _ cs, x', y', aw', x, y, aw => by
    simp only [layout_node]
    rw [layoutChildren_twice cs x' y' aw' x y aw]

theorem layoutChildren_twice : ∀ (cs : List RenderNode) (x' y' aw' x y aw : ℚ),
    layoutChildren (layoutChildren cs x' y' aw').1 x y aw = layoutChildren cs x y aw
  | [], _, _, _, _, _, _ => rfl
  | c :: rest, x', y', aw', x, y, aw => by
    simp only [layoutChildren]
    rw [layout_node_twice c x' y' aw' x y aw, layoutChildren_twice rest]
end

/-! ## The claims -/

/-- C8: the default `ComputedStyle` has `Block` display, no explicit width or
height and a fully transparent background — but its text color is the derived
all-zero `Color`, i.e. fully transparent black, not opaque black. -/
theorem c8_default_style :
    ComputedStyle.default.display = Display.Block ∧
    ComputedStyle.default.width = none ∧
    ComputedStyle.default.height = none ∧
    ComputedStyle.default.background_color = Color.TRANSPARENT ∧
    ComputedStyle.default.color = Color.TRANSPARENT := by
  refine ⟨rfl, rfl, rfl, rfl, rfl⟩

/-- C8 counterexample: the claim states the default text color is opaque
black (RGBA 0,0,0,255); it is in fact the derived all-zero color
(RGBA 0,0,0,0), which differs. -/
theorem c8_default_color_not_black :
    ComputedStyle.default.color = Color.mk 0 0 0 0 ∧
    ComputedStyle.default.color ≠ Color.mk 0 0 0 255 ∧
    ComputedStyle.default.color ≠ Color.BLACK := by
  refine ⟨rfl, by decide, by decide⟩

/-- C4: `parse` fails exactly on the empty string (no trimming before the
emptiness check) and succeeds, producing a document, on every non-empty
markup string, for every url. -/
theorem c4_parse_error_iff_empty (html url : String) :
    (HtmlParser.parse html url = .error (BrowserError.Parse "Empty HTML") ↔ html = "") ∧
    exceptIsOk (HtmlParser.parse html url) = !html.isEmpty := by
  by_cases h : html = ""
  · subst h
    exact ⟨⟨fun _ => rfl, fun _ => rfl⟩, rfl⟩
  · have hne : html.isEmpty = false := by
      rw [← Bool.not_eq_true, String.isEmpty_iff]
      exact h
    constructor
    · rw [HtmlParser.parse, hne]
      constructor
      · intro hcontra
        exact absurd hcontra (by simp)
      · intro hcontra
        exact absurd hcontra h
    · rw [HtmlParser.parse, hne]
      rfl

/-- C5: the render tree built from an element tree has exactly as many nodes,
lists the same elements in the same depth-first pre-order, collapses back to
the source tree (same shape, same child order, same per-node data), and its
root holds a copy of the source element. -/
theorem c5_render_tree_isomorphic (vw x y : ℚ) (e : Element) :
    countRenderNodes (build_render_node vw e x y) = countElements e ∧
    renderPreorderElems (build_render_node vw e x y) = elemPreorder e ∧
    stripRender (build_render_node vw e x y) = e ∧
    RenderNode.element (build_render_node vw e x y) = e :=
  ⟨build_count vw e x y, build_preorder vw e x y, build_strip vw e x y,
    build_element vw e x y⟩

/-- C10: layout only rewrites layout boxes: erasing every box after a layout
pass gives the same tree as erasing every box before it, so each node's
element, computed style and child list (count and order) are untouched. -/
theorem c10_layout_frame (en : RenderEngine) (t : RenderTree) (n : RenderNode)
    (x y aw : ℚ) :
    eraseBoxes (RenderEngine.layout en t).root = eraseBoxes t.root ∧
    eraseBoxes (layout_node n x y aw) = eraseBoxes n := by
  constructor
  · cases t
    simp only [RenderEngine.layout]
    exact layout_erase _ 0 0 _
  · exact layout_erase n x y aw

/-- C6: layout is deterministic and accumulates no state: re-running layout
with any engine (same viewport or a resized one) on an already laid out tree
gives exactly the tree the second engine would produce from scratch; with
`en' = en` this is idempotence. -/
theorem c6_layout_idempotent (en en' : RenderEngine) (t : RenderTree) :
    RenderEngine.layout en (RenderEngine.layout en' t) = RenderEngine.layout en t := by
  cases t
  simp only [RenderEngine.layout]
  rw [layout_node_twice]

mutual
theorem build_styles_default (vw : ℚ) : ∀ (e : Element) (x y : ℚ),
    allDefaultStyles (build_render_node vw e x y) = true
  | .mk _ _ cs _, x, y => by
    simp only [build_render_node, allDefaultStyles]
    rw [build_styles_default_list vw cs x y 0]
    simp

theorem build_styles_default_list (vw : ℚ) : ∀ (cs : List Element) (x y : ℚ) (i : Nat),
    allDefaultStylesList (buildChildren vw cs x y i) = true
  | [], _, _, _ => rfl
  | c :: rest, x, y, i => by
    simp only [buildChildren, allDefaultStylesList]
    rw [build_styles_default vw c x (y + (i : ℚ) * 20),
      build_styles_default_list vw rest x y (i + 1)]
    rfl
end

/-- C1 amended: the render tree builder takes no stylesheet at all and gives
every node the default `ComputedStyle`; this agrees with the specified style
resolver only on stylesheets where no rule matches — in particular on the
empty stylesheet, for which the resolver also yields the default style. -/
theorem c1_builder_styles_all_default (vw x y : ℚ) (e : Element) :
    allDefaultStyles (build_render_node vw e x y) = true ∧
    resolve e ⟨[]⟩ = ComputedStyle.default :=
  ⟨build_styles_default vw e x y, rfl⟩

/-- C1 counterexample: with the spec's own cascade example — rules
`[(sel="p", color=black), (sel="p", color=red)]` and a tag-"p" element — the
specified resolver yields red text, but the builder attaches the default
(transparent-text) style, so the builder does not assign the resolver's
output. -/
theorem c1_builder_ignores_stylesheet :
    RenderNode.computed_style (build_render_node 1920 (Element.new "p") 0 0) =
      ComputedStyle.default ∧
    (resolve (Element.new "p")
      ⟨[⟨"p", [("color", "black")]⟩, ⟨"p", [("color", "red")]⟩]⟩).color =
      Color.mk 255 0 0 255 ∧
    RenderNode.computed_style (build_render_node 1920 (Element.new "p") 0 0) ≠
      resolve (Element.new "p")
        ⟨[⟨"p", [("color", "black")]⟩, ⟨"p", [("color", "red")]⟩]⟩ := by
  have hb : RenderNode.computed_style (build_render_node 1920 (Element.new "p") 0 0) =
      ComputedStyle.default := by
    simp only [Element.new, build_render_node, RenderNode.computed_style]
  refine ⟨hb, by decide, ?_⟩
  rw [hb]
  decide

mutual
theorem extract_title_noTitle : ∀ (e : Element), containsTitle e = false →
    HtmlParser.extract_title e = "Untitled"
  | .mk t _ cs _, h => by
    simp only [containsTitle, Bool.or_eq_false_iff] at h
    simp only [HtmlParser.extract_title]
    rw [if_neg (by simpa using h.1)]
    exact extractTitleLoop_noTitle cs h.2

theorem extractTitleLoop_noTitle : ∀ (cs : List Element), containsTitleList cs = false →
    HtmlParser.extractTitleLoop cs = "Untitled"
  | [], _ => rfl
  | c :: rest, h => by
    simp only [containsTitleList, Bool.or_eq_false_iff] at h
    simp only [HtmlParser.extractTitleLoop]
    rw [extract_title_noTitle c h.1, if_pos (by decide : ("Untitled" : String) ≠ "")]
end

mutual
theorem extract_title_mem : ∀ (e : Element),
    HtmlParser.extract_title e = "Untitled" ∨ HtmlParser.extract_title e ∈ titleTexts e
  | .mk t _ cs txt => by
    by_cases h : t = "title"
    · right
      simp only [HtmlParser.extract_title, if_pos h, titleTexts]
      rw [if_pos (by simpa using h)]
      simp
    · simp only [HtmlParser.extract_title, if_neg h, titleTexts]
      rw [if_neg (by simpa using h)]
      rcases extractTitleLoop_mem cs with hl | hl
      · exact Or.inl hl
      · right
        simpa using hl

theorem extractTitleLoop_mem : ∀ (cs : List Element),
    HtmlParser.extractTitleLoop cs = "Untitled" ∨
      HtmlParser.extractTitleLoop cs ∈ titleTextsList cs
  | [] => Or.inl rfl
  | c :: rest => by
    simp only [HtmlParser.extractTitleLoop]
    by_cases h : HtmlParser.extract_title c ≠ ""
    · rw [if_pos h]
      rcases extract_title_mem c with he | he
      · exact Or.inl he
      · right
        simp only [titleTextsList, List.mem_append]
        exact Or.inl he
    · rw [if_neg h]
      rcases extractTitleLoop_mem rest with hl | hl
      · exact Or.inl hl
      · right
        simp only [titleTextsList, List.mem_append]
        exact Or.inr hl
end

/-- C3 amended: a root tagged "title" yields its text content (empty string
when absent); any other result is either "Untitled" or the text of some
"title" node of the tree; and a tree containing no "title" node yields
"Untitled".  The search is not the depth-first pre-order search of the claim:
a titleless earlier sibling subtree returns the non-empty string "Untitled",
which masks every later sibling subtree. -/
theorem c3_extract_title_behaviour (t : Element) :
    (containsTitle t = false → HtmlParser.extract_title t = "Untitled") ∧
    (HtmlParser.extract_title t = "Untitled" ∨
      HtmlParser.extract_title t ∈ titleTexts t) ∧
    (∀ (a : List (String × String)) (cs : List Element) (txt : Option String),
      HtmlParser.extract_title (.mk "title" a cs txt) = txt.getD "") := by
  refine ⟨extract_title_noTitle t, extract_title_mem t, ?_⟩
  intro a cs txt
  simp [HtmlParser.extract_title]

/-- C3 counterexample: in the tree `html [div, title "Hello"]` the first (and
only) "title" node in depth-first pre-order has text "Hello", yet
`extract_title` returns "Untitled": the titleless `div` subtree yields
"Untitled", which is non-empty and masks the later sibling. -/
theorem c3_title_masked_by_sibling :
    HtmlParser.extract_title
      (.mk "html" [] [.mk "div" [] [] none, .mk "title" [] [] (some "Hello")] none) =
      "Untitled" ∧
    ("Untitled" : String) ≠ "Hello" := by
  constructor
  · simp [HtmlParser.extract_title, HtmlParser.extractTitleLoop]
  · decide

theorem layout_node_y (n : RenderNode) (x y aw : ℚ) :
    (RenderNode.layout (layout_node n x y aw)).y = y := by
  cases n
  simp only [layout_node, RenderNode.layout]

/-- Prepending a child whose box sits at `y` moves the cursor start to the
child's bottom edge plus the gap. -/
theorem cursorSpec_cons (y : ℚ) (c : RenderNode) (l : List RenderNode)
    (hcy : (RenderNode.layout c).y = y) :
    cursorSpec y (c :: l) =
      cursorSpec (y + (RenderNode.layout c).height + 8) l := by
  cases l with
  | nil => simp [cursorSpec, hcy]
  | cons d ds =>
    simp only [cursorSpec, List.getLast?_cons_cons]
    cases hgl : (d :: ds).getLast? with
    | none => exact absurd hgl (by simp)
    | some last => rfl

mutual
theorem layoutChildren_spec : ∀ (cs : List RenderNode) (x y aw : ℚ),
    stackedFrom y (layoutChildren cs x y aw).1 ∧
    layoutOkList (layoutChildren cs x y aw).1 ∧
    (layoutChildren cs x y aw).2 = cursorSpec y (layoutChildren cs x y aw).1
  | [], x, y, aw => by
    simp only [layoutChildren, stackedFrom, layoutOkList]
    exact ⟨trivial, trivial, by simp [cursorSpec]⟩
  | c :: rest, x, y, aw => by
    simp only [layoutChildren, stackedFrom, layoutOkList]
    obtain ⟨hs, ho, hc⟩ := layoutChildren_spec rest x
      (y + (RenderNode.layout (layout_node c x y aw)).height + 8) aw
    refine ⟨⟨layout_node_y c x y aw, hs⟩, ⟨layout_node_spec c x y aw, ho⟩, ?_⟩
    rw [cursorSpec_cons y (layout_node c x y aw) _ (layout_node_y c x y aw)]
    exact hc

theorem layout_node_spec : ∀ (n : RenderNode) (x y aw : ℚ),
    layoutOk (layout_node n x y aw)
  | .mk _ _ _ cs, x, y, aw => by
    simp only [layout_node, layoutOk]
    obtain ⟨hs, ho, hc⟩ := layoutChildren_spec cs x y aw
    refine ⟨hs, ?_, ho⟩
    rw [heightSpec, hc]
end

/-- The element tree of the block-stacking example: a root with three
childless children. -/
def blockExample : Element :=
  .mk "root" [] [Element.new "a", Element.new "b", Element.new "c"] none

/-- C2 amended: after layout every childless node has height 0 and siblings
stack with the 8-unit gap from the parent's `y`, but a node with children has
height `last_child.y + last_child.height + 8 − node.y` — the cursor keeps the
trailing gap after the last child — so the three-leaf example produces
children at y = 0, 8, 16 and a root of height 24, not 16. -/
theorem c2_layout_block_stacking (n : RenderNode) (x y aw : ℚ) :
    layoutOk (layout_node n x y aw) ∧
    List.map (fun c => (RenderNode.layout c).y)
      (RenderNode.children (layout_node (build_render_node 800 blockExample 0 0) 0 0 800)) =
      [0, 8, 16] ∧
    (RenderNode.layout (layout_node (build_render_node 800 blockExample 0 0) 0 0 800)).height =
      24 := by
  refine ⟨layout_node_spec n x y aw, ?_, ?_⟩ <;>
    norm_num [blockExample, Element.new, build_render_node, buildChildren, layout_node,
      layoutChildren, RenderNode.layout, RenderNode.children]

/-- C2 counterexample: laying out the three-leaf example at viewport width
800 puts the children at y = 0, 8, 16 as the claim says, but gives the root
height 24 (the trailing 8-unit gap is kept), not the claimed 16. -/
theorem c2_root_height_not_sixteen :
    List.map (fun c => (RenderNode.layout c).y)
      (RenderNode.children (layout_node (build_render_node 800 blockExample 0 0) 0 0 800)) =
      [0, 8, 16] ∧
    (RenderNode.layout (layout_node (build_render_node 800 blockExample 0 0) 0 0 800)).height =
      24 ∧
    (RenderNode.layout (layout_node (build_render_node 800 blockExample 0 0) 0 0 800)).height ≠
      16 := by
  refine ⟨?_, ?_, ?_⟩ <;>
    norm_num [blockExample, Element.new, build_render_node, buildChildren, layout_node,
      layoutChildren, RenderNode.layout, RenderNode.children]

theorem contains_char_iff (l : List Char) (a : Char) : l.contains a = true ↔ a ∈ l := by
  rw [List.contains_iff_exists_mem_beq]
  constructor
  · rintro ⟨b, hb, hbeq⟩
    simp only [beq_iff_eq] at hbeq
    rwa [hbeq]
  · intro h
    exact ⟨a, h, by simp⟩

/-- `fallbackCond` holds exactly when no `<` of the input is followed, weakly,
by a `>` — that is, `['<', '>']` is not a subsequence. -/
theorem fallbackCond_iff (l : List Char) :
    fallbackCond l = true ↔ ¬ List.Sublist ['<', '>'] l := by
  induction l with
  | nil => simp [fallbackCond]
  | cons c r ih =>
    by_cases hc : c = '<'
    · subst hc
      simp only [fallbackCond, List.dropWhile_cons]
      rw [if_neg (by simp)]
      rw [List.cons_sublist_cons, List.singleton_sublist]
      rw [Bool.not_eq_true', ← Bool.not_eq_true]
      rw [contains_char_iff]
      simp
    · simp only [fallbackCond, List.dropWhile_cons]
      rw [if_pos (by simp [hc])]
      rw [fallbackCond] at ih
      rw [ih]
      constructor
      · intro h hs
        rcases List.sublist_cons_iff.mp hs with hs' | ⟨rr, hrr, _⟩
        · exact h hs'
        · exact hc (by injection hrr with h1 _; exact h1.symm)
      · intro h hs
        exact h (hs.trans (List.sublist_cons_self c r))

theorem fallbackCond_of_sublist (m l : List Char) (hm : List.Sublist m l)
    (h : fallbackCond l = true) : fallbackCond m = true := by
  rw [fallbackCond_iff] at h ⊢
  exact fun hs => h (hs.trans hm)

theorem startsWith_head2 (t : List Char) (p q : Char) (ps : List Char)
    (h : startsWithChars t (p :: q :: ps) = true) : ∃ rest, t = p :: q :: rest := by
  cases t with
  | nil => exact absurd h (by simp [startsWithChars])
  | cons c cs =>
    cases cs with
    | nil =>
      rw [startsWithChars, Bool.and_eq_true] at h
      exact absurd h.2 (by simp [startsWithChars])
    | cons c2 cs2 =>
      rw [startsWithChars, Bool.and_eq_true] at h
      rw [startsWithChars, Bool.and_eq_true] at h
      have h1 := h.1
      have h2 := h.2.1
      simp only [beq_iff_eq] at h1 h2
      exact ⟨cs2, by rw [h1, h2]⟩

/-- If the input falls in the fallback scenario, the tag scan yields the
empty "div" element. -/
theorem scanFirstTag_fallback (t : List Char) (h : fallbackCond t = true) :
    scanFirstTag t = Element.new "div" := by
  rw [fallbackCond, Bool.not_eq_true'] at h
  rw [scanFirstTag.eq_def]
  cases hd : t.dropWhile (fun c => c != '<') with
  | nil => rfl
  | cons hdc rest =>
    rw [hd] at h
    have hrest : rest.contains '>' = false := by
      rw [List.contains_cons, Bool.or_eq_false_iff] at h
      exact h.2
    have hmem : ¬ ('>' ∈ rest) := by
      rw [← contains_char_iff, hrest]
      simp
    simp [hmem]

/-- In the fallback scenario `parse_element` yields the empty "div" element:
the doctype branch cannot fire (a doctype prefix forces the first `<` to be
the very first character, and then the scenario forbids any `>`), and the tag
scan finds no closing `>`. -/
theorem parse_element_fallback (l : List Char) (h : fallbackCond l = true) :
    HtmlParser.parse_element l = Element.new "div" := by
  have ht : fallbackCond (trimChars l) = true :=
    fallbackCond_of_sublist _ _ (trimChars_sublist l) h
  have hcond : ((startsWithChars (trimChars l) "<!DOCTYPE".toList ||
      startsWithChars (trimChars l) "<!doctype".toList) &&
      (trimChars l).contains '>') = false := by
    cases hsw : (startsWithChars (trimChars l) "<!DOCTYPE".toList ||
        startsWithChars (trimChars l) "<!doctype".toList) with
    | false => rfl
    | true =>
      have hhead : ∃ rest, trimChars l = '<' :: '!' :: rest := by
        rcases Bool.or_eq_true_iff.mp hsw with h1 | h1
        · exact startsWith_head2 _ _ _ _
            (by rw [show "<!DOCTYPE".toList = '<' :: '!' :: "DOCTYPE".toList from rfl] at h1
                exact h1)
        · exact startsWith_head2 _ _ _ _
            (by rw [show "<!doctype".toList = '<' :: '!' :: "doctype".toList from rfl] at h1
                exact h1)
      rcases hhead with ⟨rest, hrest⟩
      have hnc : (trimChars l).contains '>' = false := by
        rw [fallbackCond, hrest] at ht
        simp only [List.dropWhile_cons] at ht
        rw [if_neg (by simp)] at ht
        rw [Bool.not_eq_true'] at ht
        rw [hrest]
        exact ht
      rw [hnc]
      rfl
  rw [parse_element_noSkip l hcond]
  exact scanFirstTag_fallback _ ht

/-- In the all-whitespace-header scenario the tag scan defaults the tag name
to "div". -/
theorem scanFirstTag_emptyHeader (l : List Char) (h : emptyHeaderCond l = true) :
    scanFirstTag (trimChars l) = Element.new "div" := by
  rw [emptyHeaderCond] at h
  cases hd : (trimChars l).dropWhile (fun c => c != '<') with
  | nil => simp [hd] at h
  | cons hdc rest =>
    rw [scanFirstTag.eq_def, hd]
    rw [hd] at h
    simp only [Bool.and_eq_true] at h
    have h1 : rest.contains '>' = true := h.1
    have h2 : (rest.takeWhile (fun c => c != '>')).all isRustWhitespace = true := h.2
    have h3 : firstToken (rest.takeWhile (fun c => c != '>')) = [] := by
      rw [firstToken]
      have hdw : (rest.takeWhile (fun c => c != '>')).dropWhile isRustWhitespace = [] :=
        List.dropWhile_eq_nil_iff.mpr (List.all_eq_true.mp h2)
      rw [hdw]
      rfl
    simp [h1, h3]

/-- In the all-whitespace-header scenario `parse_element` yields the empty
"div" element: a doctype prefix would put `!` in the header, which is not
whitespace, so the doctype branch cannot fire, and the scan defaults the tag
name. -/
theorem parse_element_emptyHeader (l : List Char) (h : emptyHeaderCond l = true) :
    HtmlParser.parse_element l = Element.new "div" := by
  have hsw : (startsWithChars (trimChars l) "<!DOCTYPE".toList ||
      startsWithChars (trimChars l) "<!doctype".toList) = false := by
    cases hsw : (startsWithChars (trimChars l) "<!DOCTYPE".toList ||
        startsWithChars (trimChars l) "<!doctype".toList) with
    | false => rfl
    | true =>
      have hhead : ∃ rest, trimChars l = '<' :: '!' :: rest := by
        rcases Bool.or_eq_true_iff.mp hsw with h1 | h1
        · exact startsWith_head2 _ _ _ _
            (by rw [show "<!DOCTYPE".toList = '<' :: '!' :: "DOCTYPE".toList from rfl] at h1
                exact h1)
        · exact startsWith_head2 _ _ _ _
            (by rw [show "<!doctype".toList = '<' :: '!' :: "doctype".toList from rfl] at h1
                exact h1)
      rcases hhead with ⟨rest, hrest⟩
      rw [emptyHeaderCond, hrest] at h
      simp only [List.dropWhile_cons] at h
      rw [if_neg (by simp)] at h
      have h' : (('!' :: rest).contains '>' &&
          (('!' :: rest).takeWhile (fun c => c != '>')).all isRustWhitespace) = true := h
      rw [List.takeWhile_cons, if_pos (by decide), List.all_cons,
        show isRustWhitespace '!' = false from by decide] at h'
      simp at h'
  rw [parse_element_noSkip l (by rw [hsw]; rfl)]
  exact scanFirstTag_emptyHeader l h

theorem docRootTag_parse (s u : String) (h : s.isEmpty = false) :
    docRootTag (HtmlParser.parse s u) =
      Element.tag (HtmlParser.parse_element s.toList) := by
  simp [HtmlParser.parse, h, docRootTag]

/-- C9: whenever the input is non-empty and has no `<`, or no `>` at or after
its first `<`, `parse` succeeds with the single empty "div" element as root
(and hence title "Untitled"); when a tag is found whose header is all
whitespace, the tag name likewise defaults to "div"; and parsing succeeds on
every non-empty input.  The two scenarios are inhabited: "hello" falls in the
first and "< >" in the second. -/
theorem c9_fallback_root (html url : String) :
    (html ≠ "" → fallbackCond html.toList = true →
      HtmlParser.parse html url = .ok ⟨"Untitled", Element.new "div", url⟩) ∧
    (html ≠ "" → emptyHeaderCond html.toList = true →
      HtmlParser.parse html url = .ok ⟨"Untitled", Element.new "div", url⟩) ∧
    (html ≠ "" → exceptIsOk (HtmlParser.parse html url) = true) ∧
    fallbackCond "hello".toList = true ∧ emptyHeaderCond "< >".toList = true := by
  have hok : ∀ (s : String), s ≠ "" →
      HtmlParser.parse_element s.toList = Element.new "div" →
      HtmlParser.parse s url = .ok ⟨"Untitled", Element.new "div", url⟩ := by
    intro s hs hdiv
    have hne : s.isEmpty = false := by
      rw [← Bool.not_eq_true, String.isEmpty_iff]
      exact hs
    rw [HtmlParser.parse, hne]
    simp only [Bool.false_eq_true, if_false]
    rw [hdiv]
    rfl
  refine ⟨?_, ?_, ?_, by decide, by decide⟩
  · intro h1 h2
    exact hok html h1 (parse_element_fallback _ h2)
  · intro h1 h2
    exact hok html h1 (parse_element_emptyHeader _ h2)
  · intro h1
    have hne : html.isEmpty = false := by
      rw [← Bool.not_eq_true, String.isEmpty_iff]
      exact h1
    rw [HtmlParser.parse, hne]
    rfl

/-- C9 witness: the fallback and defaulted-tag scenarios at concrete inputs:
"hello" (no `<` at all) and "< >" (whitespace-only header) both parse to the
empty "div" root with title "Untitled", and "x" parses successfully. -/
theorem c9_fallback_root_witness :
    HtmlParser.parse "hello" "u" = .ok ⟨"Untitled", Element.new "div", "u"⟩ ∧
    HtmlParser.parse "< >" "u" = .ok ⟨"Untitled", Element.new "div", "u"⟩ ∧
    exceptIsOk (HtmlParser.parse "x" "u") = true :=
  ⟨(c9_fallback_root "hello" "u").1 (by decide) (by decide),
    (c9_fallback_root "< >" "u").2.1 (by decide) (by decide),
    (c9_fallback_root "x" "u").2.2.1 (by decide)⟩

/-- C7 amended: only the two exact casings `<!DOCTYPE` and `<!doctype` are
skipped (case-insensitivity beyond these two forms does not hold); for those,
when the trimmed input contains a `>`, parsing continues transparently on the
remainder after the first `>`, and when it contains no `>` the scan falls
back to the empty "div" root; concretely both `<!DOCTYPE html><html></html>`
and `<html></html>` parse to root tag "html". -/
theorem c7_doctype_exact_casings (l : List Char) :
    ((startsWithChars (trimChars l) "<!DOCTYPE".toList ||
        startsWithChars (trimChars l) "<!doctype".toList) = true →
      (trimChars l).contains '>' = true →
      HtmlParser.parse_element l =
        HtmlParser.parse_element (((trimChars l).dropWhile (fun c => c != '>')).drop 1)) ∧
    ((startsWithChars (trimChars l) "<!DOCTYPE".toList ||
        startsWithChars (trimChars l) "<!doctype".toList) = true →
      (trimChars l).contains '>' = false →
      HtmlParser.parse_element l = Element.new "div") ∧
    docRootTag (HtmlParser.parse "<!DOCTYPE html><html></html>" "u") = "html" ∧
    docRootTag (HtmlParser.parse "<html></html>" "u") = "html" := by
  refine ⟨?_, ?_, ?_, ?_⟩
  · intro h1 h2
    exact parse_element_skip l (by rw [h1, h2]; rfl)
  · intro h1 h2
    rw [parse_element_noSkip l (by rw [h2]; simp)]
    have hhead : ∃ rest, trimChars l = '<' :: '!' :: rest := by
      rcases Bool.or_eq_true_iff.mp h1 with hx | hx
      · exact startsWith_head2 _ _ _ _
          (by rw [show "<!DOCTYPE".toList = '<' :: '!' :: "DOCTYPE".toList from rfl] at hx
              exact hx)
      · exact startsWith_head2 _ _ _ _
          (by rw [show "<!doctype".toList = '<' :: '!' :: "doctype".toList from rfl] at hx
              exact hx)
    rcases hhead with ⟨rest, hrest⟩
    apply scanFirstTag_fallback
    rw [fallbackCond, hrest]
    simp only [List.dropWhile_cons]
    rw [if_neg (by simp)]
    rw [Bool.not_eq_true']
    rw [hrest] at h2
    exact h2
  · rw [docRootTag_parse _ _ (by decide)]
    rw [parse_element_skip _ (by decide)]
    rw [show (((trimChars "<!DOCTYPE html><html></html>".toList).dropWhile
        (fun c => c != '>')).drop 1) = "<html></html>".toList from by decide]
    rw [parse_element_noSkip _ (by decide)]
    decide
  · rw [docRootTag_parse _ _ (by decide)]
    rw [parse_element_noSkip _ (by decide)]
    decide

/-- C7 witness: the exact-casing doctype skip exercised at concrete inputs:
`<!doctype x><p></p>` recurses past the first `>`, and `<!DOCTYPE html` (no
closing `>`) falls back to the "div" root. -/
theorem c7_doctype_exact_casings_witness :
    HtmlParser.parse_element "<!doctype x><p></p>".toList =
      HtmlParser.parse_element
        (((trimChars "<!doctype x><p></p>".toList).dropWhile (fun c => c != '>')).drop 1) ∧
    HtmlParser.parse_element "<!DOCTYPE html".toList = Element.new "div" :=
  ⟨(c7_doctype_exact_casings "<!doctype x><p></p>".toList).1 (by decide) (by decide),
    (c7_doctype_exact_casings "<!DOCTYPE html".toList).2.1 (by decide) (by decide)⟩

/-- C7 counterexample: `<!DoCtYpE html><html></html>` begins (after trimming)
with "<!doctype" in mixed casing followed by a `>`, yet parsing it does not
skip the declaration: the root tag comes out "!DoCtYpE", not the "html"
obtained by parsing the remainder after the first `>`. -/
theorem c7_mixed_case_doctype_not_skipped :
    docRootTag (HtmlParser.parse "<!DoCtYpE html><html></html>" "u") = "!DoCtYpE" ∧
    docRootTag (HtmlParser.parse "<html></html>" "v") = "html" ∧
    ("!DoCtYpE" : String) ≠ "html" := by
  refine ⟨?_, ?_, by decide⟩
  · rw [docRootTag_parse _ _ (by decide)]
    rw [parse_element_noSkip _ (by decide)]
    decide
  · rw [docRootTag_parse _ _ (by decide)]
    rw [parse_element_noSkip _ (by decide)]
    decide

end EssentiaBrowser
